import Mathlib

/-!
Verification of the survival-analysis pipeline in src/app.py.

The program reads a tab-separated table of subjects, resolves a per-subject
survival duration with a two-tier fallback (dates, then explicit day counts),
derives a boolean event indicator per analysis type, partitions subjects into
labeled groups, and, for each group, emits a Kaplan-Meier curve together with
the censored-subject records; with two or more groups it also runs a logrank
test on the concatenated data.

The embedding below is a shallow one: a pandas DataFrame becomes a `Table`
(a list of `Subject` rows plus the list of column names actually present in
the file), a pandas Series becomes a positional `List`, a missing cell (NaN)
becomes `none`, and a python `raise` becomes `Except.error` carrying the
message text. Boolean masks and mask selection mirror the numpy-array based
positional indexing used by the source. Calls into the external statistics
library (sksurv) are outside the repository; where a claim concerns them the
corresponding definition is modelled from the specification and says so in
its doc comment.
-/

/-- One row of the input table. Every field that can be absent in a given
row (a NaN cell in pandas) is an `Option`. Dates are measured as whole days
since an arbitrary epoch, which is all the code observes of them (it only
ever subtracts two dates and takes `.dt.days`). -/
structure Subject where
  sample_id : String
  label : Option String
  diagnosis_date : Option Int
  vital_status_change_date : Option Int
  progression_status_change_date : Option Int
  vital_status_change_day : Option ℚ
  progression_status_change_day : Option ℚ
  vital_status : Option Bool
  progression_status : Option Bool
deriving DecidableEq, Repr

/-- The input table: the rows plus the set of column names present in the
file. Column presence is tracked separately from cell presence because the
source distinguishes a missing column (KeyError or an explicit ValueError)
from a missing cell (NaN propagation). -/
structure Table where
  rows : List Subject
  cols : List String
deriving DecidableEq, Repr

/-- Pandas elementwise equality on a column that may hold NaN: a comparison
involving NaN is False, including NaN == NaN. -/
def pdEq (a b : Option String) : Bool :=
  match a, b with
  | some x, some y => x == y
  | _, _ => false

/-- Selection of the elements of a list by a positional boolean mask, the
shallow counterpart of indexing a Series or DataFrame with a numpy boolean
array. -/
def maskFilter {α : Type} : List α → List Bool → List α
  | x :: xs, b :: bs => if b then x :: maskFilter xs bs else maskFilter xs bs
  | _, _ => []

/-- Helper for `uniqList`, carrying the set of values already seen. -/
def uniqAux {α : Type} [DecidableEq α] (seen : List α) : List α → List α
  | [] => []
  | x :: xs => if x ∈ seen then uniqAux seen xs else x :: uniqAux (x :: seen) xs

/-- First-occurrence deduplication, the shallow counterpart of
pandas `Series.unique` (which keeps the order of first appearance and
collapses all NaN values to a single one). -/
def uniqList {α : Type} [DecidableEq α] (l : List α) : List α :=
  uniqAux [] l

/-- Index of the first occurrence of `a` in `l` (length of `l` when absent). -/
def firstIdx {α : Type} [DecidableEq α] : List α → α → Nat
  | [], _ => 0
  | x :: xs, a => if x = a then 0 else firstIdx xs a + 1

/-- Value of the named date column in one row, as the source reads it with
`data[census_date_column]`; only the two census date columns are ever
requested here. -/
def cell_date (r : Subject) (c : String) : Option Int :=
  if c = "vital_status_change_date" then r.vital_status_change_date
  else if c = "progression_status_change_date" then r.progression_status_change_date
  else none

/-- Difference in whole days between the diagnosis date and the named census
date of one row, `none` when either cell is missing; this is the per-row
content of `(census_date - diag_date).dt.days` in the source. -/
def date_diff (r : Subject) (c : String) : Option Int :=
  match r.diagnosis_date, cell_date r c with
  | some d0, some d1 => some (d1 - d0)
  | _, _ => none

/-- Embedding of `get_survival_days_from_dates` (app.py lines 21 to 41):
validate the requested census date column, then return the per-row day
difference together with the per-row success flag (`survival_days.isna()==False`).
Reading a column absent from the table raises, carried here as an error whose
message is the column name, as a pandas KeyError would show it. -/
def get_survival_days_from_dates (data : Table) (census_date_column : String) :
    Except String (List (Option Int) × List Bool) :=
  if census_date_column ∉ ["vital_status_change_date", "progression_status_change_date"] then
    Except.error s!"Column {census_date_column} not in [vital_status_change_date,progression_status_change_date]"
  else if census_date_column ∉ data.cols then
    Except.error s!"Column {census_date_column} not in data"
  else if "diagnosis_date" ∉ data.cols then
    Except.error "diagnosis_date"
  else
    let survival_days := data.rows.map (fun r => date_diff r census_date_column)
    Except.ok (survival_days, survival_days.map Option.isSome)

/-- Embedding of `get_survival_days_from_days` (app.py lines 43 to 62):
validate the requested census day column, then read the survival days.
Note the source reads the hardcoded column name "vital_status_change_day"
(line 58) rather than `census_day_column`, so that is what the embedding
reads; when that column is absent from the table the read raises a KeyError,
carried here as an error whose message is the column name. -/
def get_survival_days_from_days (data : Table) (census_day_column : String) :
    Except String (List (Option ℚ) × List Bool) :=
  if census_day_column ∉ ["vital_status_change_day", "progression_status_change_day"] then
    Except.error s!"Column {census_day_column} not in [vital_status_change_day,progression_status_change_day]"
  else if census_day_column ∉ data.cols then
    Except.error s!"Column {census_day_column} not in data"
  else if "vital_status_change_day" ∉ data.cols then
    Except.error "vital_status_change_day"
  else
    let survival_days := data.rows.map (fun r => r.vital_status_change_day)
    Except.ok (survival_days, survival_days.map Option.isSome)

/-- Embedding of `get_survival_columns` (app.py lines 64 to 77): map the
analysis type to the pair (census date column, census day column). -/
def get_survival_columns (type : String) : Except String (String × String) :=
  if type ∉ ["progress", "vital"] then
    Except.error s!"Type {type} not in [progress,vital]"
  else if type = "progress" then
    Except.ok ("progression_status_change_date", "progression_status_change_day")
  else
    Except.ok ("vital_status_change_date", "vital_status_change_day")

/-- Positional combination of the two tiers, the shallow counterpart of the
two masked `iloc` assignments in `get_survival_days` (lines 96 and 98): a
position takes the date-tier value where the date tier succeeded and the
day-tier value elsewhere. -/
def resolve_days : List (Option Int) → List Bool → List (Option ℚ) → List (Option ℚ)
  | a :: as, b :: bs, c :: cs =>
      (if b then a.map (fun z => (z : ℚ)) else c) :: resolve_days as bs cs
  | _, _, _ => []

/-- Embedding of `get_survival_days` (app.py lines 81 to 99): select the
columns for the analysis type, run the date tier, run the day tier, and
combine them positionally. -/
def get_survival_days (data : Table) (type : String) : Except String (List (Option ℚ)) := do
  let cols ← get_survival_columns type
  let dates ← get_survival_days_from_dates data cols.1
  let days ← get_survival_days_from_days data cols.2
  pure (resolve_days dates.1 dates.2 days.1)

/-- Embedding of `get_exit_status` (app.py lines 140 to 157): for the
"vital" type the indicator is `vital_status == False` elementwise, for
"progress" it is `progression_status == True`; in both cases a missing cell
compares as False. Reading a status column absent from the table raises a
KeyError, carried as an error whose message is the column name. -/
def get_exit_status (data : Table) (type : String) : Except String (List Bool) :=
  if type ∉ ["progress", "vital"] then
    Except.error s!"Type {type} not in [progress,vital]"
  else if type = "vital" then
    if "vital_status" ∈ data.cols then
      Except.ok (data.rows.map (fun r => r.vital_status == some false))
    else
      Except.error "vital_status"
  else
    if "progression_status" ∈ data.cols then
      Except.ok (data.rows.map (fun r => r.progression_status == some true))
    else
      Except.error "progression_status"

/-- Embedding of `get_labels` (app.py lines 160 to 170): the label column
when present, otherwise a synthetic all-zero string series of the same
length. -/
def get_labels (data : Table) : List (Option String) :=
  if "label" ∈ data.cols then
    data.rows.map (fun r => r.label)
  else
    data.rows.map (fun _ => some "0")

/-- Embedding of `get_subsets` (app.py lines 172 to 178): one subset per
unique label value, selected by the positional mask `label == l`, in the
first-occurrence order of the labels. -/
def get_subsets (data : Table) (label : List (Option String)) :
    List Table × List (Option String) :=
  let uniq := uniqList label
  (uniq.map (fun l => { rows := maskFilter data.rows (label.map (fun x => pdEq x l)),
                        cols := data.cols }), uniq)

/-- Embedding of `get_censored_df` (app.py lines 121 to 138): select the
rows whose exit status is False and pair each selected sample id with the
survival-day value at the same position. -/
def get_censored_df (survival_days : List (Option ℚ)) (exit_status : List Bool)
    (ids : List String) : List (String × Option ℚ) :=
  let censored := exit_status.map (fun b => b == false)
  (maskFilter ids censored).zip (maskFilter survival_days censored)

/-- Everything `main` hands to the output files and to the logrank step,
apart from the survival curves themselves (those come from the external
estimator, which is out of scope for the orchestration claims): the group
labels in emission order, the censored table of each group, and, when
produced, the triple (survival days, exit status, labels) passed to
`compare_survival`. -/
structure MainOutput where
  group_labels : List (Option String)
  group_censored : List (List (String × Option ℚ))
  logrank : Option (List (Option ℚ) × List Bool × List (Option String))
deriving DecidableEq, Repr

/-- Embedding of `main` (app.py lines 218 to 252; the name `main` itself is
reserved by Lean for an entry point): compute the labels and
subsets, resolve survival days and exit status group by group (each list
comprehension stops at the first raise), build the censored table of each
group, and, when there are at least two unique labels, assemble the triple
passed to the logrank test: the group-concatenated survival days, the
group-concatenated exit status, and the original (not concatenated) label
series. With zero subsets the unpacking `zip(*[])` at line 242 raises,
carried here as the corresponding error message. Writing the files and the
external estimator calls are not modelled. -/
def app_main (data : Table) (type : String) : Except String MainOutput :=
  (get_subsets data (get_labels data)).1.mapM (fun s => get_survival_days s type) >>=
    fun survival_days =>
  (get_subsets data (get_labels data)).1.mapM (fun s => get_exit_status s type) >>=
    fun exit_status =>
  if (get_subsets data (get_labels data)).1.isEmpty then
    Except.error "not enough values to unpack (expected 2, got 0)"
  else
    pure { group_labels := (get_subsets data (get_labels data)).2,
           group_censored :=
             (survival_days.zip (exit_status.zip
               ((get_subsets data (get_labels data)).1.map
                 (fun s => s.rows.map (fun r => r.sample_id))))).map
               (fun x => get_censored_df x.1 x.2.1 x.2.2),
           logrank :=
             if 1 < (get_subsets data (get_labels data)).2.length then
               some (survival_days.flatten, exit_status.flatten, get_labels data)
             else
               none }

/-- Insertion of a value into a sorted list of times, keeping it sorted. -/
def insertSorted (x : ℚ) : List ℚ → List ℚ
  | [] => [x]
  | y :: ys => if x ≤ y then x :: y :: ys else y :: insertSorted x ys

/-- Insertion sort on rational times. -/
def sortQ (l : List ℚ) : List ℚ :=
  l.foldr insertSorted []

/-- Modelled from the spec: the risk set size immediately before time `t`,
the number of subjects whose duration is at least `t` (both the subjects
with an event at `t` and the ones censored at `t` are still at risk just
before `t`). The actual computation lives in the external library sksurv
(`kaplan_meier_estimator`), which the repository treats as a trusted
collaborator; section 4.4 of the spec describes it. -/
def kmAtRisk (ds : List (ℚ × Bool)) (t : ℚ) : Nat :=
  ds.countP (fun p => decide (t ≤ p.1))

/-- Modelled from the spec: the number of events at exactly time `t`. -/
def kmEventsAt (ds : List (ℚ × Bool)) (t : ℚ) : Nat :=
  ds.countP (fun p => decide (p.1 = t) && p.2)

/-- Modelled from the spec: the multiplicative drop of the survival
probability at time `t`, one minus the event count over the risk set size
immediately before `t`. -/
def kmFactor (ds : List (ℚ × Bool)) (t : ℚ) : ℚ :=
  1 - (kmEventsAt ds t : ℚ) / (kmAtRisk ds t : ℚ)

/-- Modelled from the spec: the distinct observed times (event or
censoring), in increasing order. -/
def kmTimes (ds : List (ℚ × Bool)) : List ℚ :=
  sortQ (uniqList (ds.map (fun p => p.1)))

/-- Modelled from the spec: the product-limit recursion along the ordered
times, starting from probability `acc`. -/
def kmCurveAux (ds : List (ℚ × Bool)) : List ℚ → ℚ → List (ℚ × ℚ)
  | [], _ => []
  | t :: ts, acc =>
      let s := acc * kmFactor ds t
      (t, s) :: kmCurveAux ds ts s

/-- Modelled from the spec: the Kaplan-Meier survival curve for one group,
one row (time, survival probability) per distinct observed time, the
probability starting from 1 and dropping by the event count over the risk
set at each time. This models the `time`, `survival_prob` part of what
`estimate_survival_function` (app.py lines 101 to 119) receives from
sksurv. -/
def kmCurve (ds : List (ℚ × Bool)) : List (ℚ × ℚ) :=
  kmCurveAux ds (kmTimes ds) 1

/-- Modelled from the spec: the lower log-log confidence bound for a
survival probability `S`, obtained by back-transforming a symmetric
interval of nonnegative half-width `c` around log(-log S); the bound is
S raised to the power exp c. -/
noncomputable def loglogLower (S : ℚ) (c : ℝ) : ℝ :=
  (S : ℝ) ^ Real.exp c

/-- Modelled from the spec: the upper log-log confidence bound, S raised to
the power exp (-c). -/
noncomputable def loglogUpper (S : ℚ) (c : ℝ) : ℝ :=
  (S : ℝ) ^ Real.exp (-c)

/-- Whether the list `pat` occurs at the start of the second list. -/
def startsWithSeq {α : Type} [DecidableEq α] : List α → List α → Bool
  | [], _ => true
  | _ :: _, [] => false
  | p :: ps, x :: xs => decide (p = x) && startsWithSeq ps xs

/-- Whether the list `pat` occurs contiguously anywhere in the second list. -/
def hasSubSeq {α : Type} [DecidableEq α] (pat : List α) : List α → Bool
  | [] => startsWithSeq pat []
  | x :: xs => startsWithSeq pat (x :: xs) || hasSubSeq pat xs

/-- Whether the string `pat` occurs as a contiguous substring of `s`; used to
state that an error message does or does not name an offending value. -/
def strIn (pat s : String) : Bool :=
  hasSubSeq pat.toList s.toList

/-- Constructor shorthand for a `Subject`, fields in declaration order. -/
def mkSubject (id : String) (lab : Option String) (dd vd pdt : Option Int)
    (vday pday : Option ℚ) (vs ps : Option Bool) : Subject :=
  { sample_id := id, label := lab, diagnosis_date := dd, vital_status_change_date := vd,
    progression_status_change_date := pdt, vital_status_change_day := vday,
    progression_status_change_day := pday, vital_status := vs, progression_status := ps }

/-- All column names an input table can carry. -/
def allColsFull : List String :=
  ["sample_id", "label", "diagnosis_date", "vital_status_change_date",
   "progression_status_change_date", "vital_status_change_day",
   "progression_status_change_day", "vital_status", "progression_status"]

/-- A one-row table whose progression day count (7) differs from its vital
day count (42) and whose dates are missing. -/
def tC1 : Table :=
  { rows := [mkSubject "s1" (some "A") none none none (some 42) (some 7) (some true) (some false)],
    cols := allColsFull }

/-- The same row in a table whose file lacks the vital day-count column but
has the progression day-count column. -/
def tC1m : Table :=
  { rows := tC1.rows, cols := allColsFull.erase "vital_status_change_day" }

/-- A three-row table whose labels interleave (A, B, A), with distinct
date-resolved durations 10, 20, 30. -/
def tC2 : Table :=
  { rows := [mkSubject "s1" (some "A") (some 0) (some 10) none none none (some false) none,
             mkSubject "s2" (some "B") (some 0) (some 20) none none none (some false) none,
             mkSubject "s3" (some "A") (some 0) (some 30) none none none (some false) none],
    cols := allColsFull }

/-- A one-row table for the progress analysis whose dates are missing and
whose progression day count (5) differs from its vital day count (99). -/
def tC3x : Table :=
  { rows := [mkSubject "s1" (some "A") none none none (some 99) (some 5) (some true) (some true)],
    cols := allColsFull }

/-- The fallback scenario of the spec: a missing vital-status-change date
with an explicit vital day count of 42. -/
def tC3w : Table :=
  { rows := [mkSubject "s1" (some "A") (some 100) none none (some 42) none (some true) none],
    cols := allColsFull }

/-- Lists for the censored-extractor witness: two subjects, the first with
an event, the second censored. -/
def sdC4 : List (Option ℚ) := [some 10, some 20]

/-- Exit statuses for the censored-extractor witness. -/
def esC4 : List Bool := [true, false]

/-- Sample ids for the censored-extractor witness. -/
def idsC4 : List String := ["a", "b"]

/-- Rows for the exit-status witnesses: vital status false, true and
missing; progression status true, false and missing. -/
def rowC5a : Subject := mkSubject "s1" none none none none none none (some false) (some true)

/-- Second exit-status witness row. -/
def rowC5b : Subject := mkSubject "s2" none none none none none none (some true) (some false)

/-- Third exit-status witness row, both statuses missing. -/
def rowC5c : Subject := mkSubject "s3" none none none none none none none none

/-- Table for the exit-status witnesses. -/
def tC5w : Table :=
  { rows := [rowC5a, rowC5b, rowC5c], cols := allColsFull }

/-- A labeled row for the grouping counterexample. -/
def rowC6a : Subject := mkSubject "s1" (some "A") none none none none none none none

/-- A row with a missing label cell for the grouping counterexample. -/
def rowC6n : Subject := mkSubject "s2" none none none none none none none none

/-- A table whose label column exists but has a missing cell in its second
row. -/
def tC6 : Table :=
  { rows := [rowC6a, rowC6n], cols := allColsFull }

/-- A fully labeled row for the grouping witness. -/
def rowC6wA : Subject := mkSubject "s1" (some "A") none none none none none none none

/-- Second fully labeled row for the grouping witness. -/
def rowC6wB : Subject := mkSubject "s2" (some "B") none none none none none none none

/-- A fully labeled two-group table for the grouping witness. -/
def tC6w : Table :=
  { rows := [rowC6wA, rowC6wB], cols := allColsFull }

/-- A zero-row table (a header-only input file). -/
def tC7e : Table :=
  { rows := [], cols := allColsFull }

/-- A one-row table whose file lacks the vital-status-change date column. -/
def tC7w : Table :=
  { rows := [mkSubject "s1" (some "A") (some 0) none none (some 10) none (some false) none],
    cols := allColsFull.erase "vital_status_change_date" }

/-- A complete single-label table on which the whole run succeeds. -/
def tC8 : Table :=
  { rows := [mkSubject "s1" (some "A") (some 0) (some 10) none (some 10) none (some false) none],
    cols := allColsFull }

/-- Table for the missing-status witness: a single row with both status
cells missing. -/
def tC10w : Table :=
  { rows := [mkSubject "s1" none none none none none none none none], cols := allColsFull }

/-! Helper lemmas about the small list combinators of the embedding. -/

theorem mem_uniqAux {α : Type} [DecidableEq α] (a : α) :
    ∀ (l seen : List α), a ∈ uniqAux seen l ↔ a ∈ l ∧ a ∉ seen := by
  intro l
  induction l with
  | nil => intro seen; simp [uniqAux]
  | cons x xs ih =>
    intro seen
    by_cases hx : x ∈ seen
    · rw [uniqAux, if_pos hx, ih seen]
      constructor
      · rintro ⟨h1, h2⟩; exact ⟨List.mem_cons_of_mem _ h1, h2⟩
      · rintro ⟨h1, h2⟩
        rcases List.mem_cons.mp h1 with h | h
        · exact absurd (h ▸ hx) h2
        · exact ⟨h, h2⟩
    · rw [uniqAux, if_neg hx]
      simp only [List.mem_cons, ih (x :: seen)]
      by_cases hax : a = x
      · subst hax; simp [hx]
      · tauto

theorem mem_uniqList {α : Type} [DecidableEq α] (a : α) (l : List α) :
    a ∈ uniqList l ↔ a ∈ l := by
  rw [uniqList, mem_uniqAux]; simp

theorem nodup_uniqAux {α : Type} [DecidableEq α] :
    ∀ (l seen : List α), (uniqAux seen l).Nodup := by
  intro l
  induction l with
  | nil => intro seen; simp [uniqAux]
  | cons x xs ih =>
    intro seen
    by_cases hx : x ∈ seen
    · rw [uniqAux, if_pos hx]; exact ih seen
    · rw [uniqAux, if_neg hx]
      refine List.Nodup.cons ?_ (ih (x :: seen))
      intro hmem
      exact ((mem_uniqAux x xs (x :: seen)).mp hmem).2 (List.mem_cons_self x seen)

theorem nodup_uniqList {α : Type} [DecidableEq α] (l : List α) : (uniqList l).Nodup :=
  nodup_uniqAux l []

theorem uniqAux_sublist {α : Type} [DecidableEq α] :
    ∀ (l seen : List α), (uniqAux seen l).Sublist l := by
  intro l
  induction l with
  | nil => intro seen; simp [uniqAux]
  | cons x xs ih =>
    intro seen
    by_cases hx : x ∈ seen
    · rw [uniqAux, if_pos hx]; exact (ih seen).cons x
    · rw [uniqAux, if_neg hx]; exact (ih (x :: seen)).cons₂ x

theorem uniqList_sublist {α : Type} [DecidableEq α] (l : List α) : (uniqList l).Sublist l :=
  uniqAux_sublist l []

theorem firstIdx_cons_self {α : Type} [DecidableEq α] (x : α) (xs : List α) :
    firstIdx (x :: xs) x = 0 := by
  simp [firstIdx]

theorem firstIdx_cons_ne {α : Type} [DecidableEq α] {x a : α} (xs : List α) (h : x ≠ a) :
    firstIdx (x :: xs) a = firstIdx xs a + 1 := by
  simp [firstIdx, h]

theorem uniqAux_pairwise_firstIdx {α : Type} [DecidableEq α] :
    ∀ (l seen : List α),
      (uniqAux seen l).Pairwise (fun a b => firstIdx l a < firstIdx l b) := by
  intro l
  induction l with
  | nil => intro seen; simp [uniqAux]
  | cons x xs ih =>
    intro seen
    by_cases hx : x ∈ seen
    · rw [uniqAux, if_pos hx]
      refine (ih seen).imp_of_mem ?_
      intro a b ha hb hab
      have ha' := (mem_uniqAux a xs seen).mp ha
      have hb' := (mem_uniqAux b xs seen).mp hb
      have hax : x ≠ a := fun h => ha'.2 (h ▸ hx)
      have hbx : x ≠ b := fun h => hb'.2 (h ▸ hx)
      rw [firstIdx_cons_ne xs hax, firstIdx_cons_ne xs hbx]
      omega
    · rw [uniqAux, if_neg hx]
      refine List.Pairwise.cons ?_ ?_
      · intro b hb
        have hb' := (mem_uniqAux b xs (x :: seen)).mp hb
        have hbx : x ≠ b := fun h => hb'.2 (h ▸ List.mem_cons_self x seen)
        rw [firstIdx_cons_self, firstIdx_cons_ne xs hbx]
        omega
      · refine (ih (x :: seen)).imp_of_mem ?_
        intro a b ha hb hab
        have ha' := (mem_uniqAux a xs (x :: seen)).mp ha
        have hb' := (mem_uniqAux b xs (x :: seen)).mp hb
        have hax : x ≠ a := fun h => ha'.2 (h ▸ List.mem_cons_self x seen)
        have hbx : x ≠ b := fun h => hb'.2 (h ▸ List.mem_cons_self x seen)
        rw [firstIdx_cons_ne xs hax, firstIdx_cons_ne xs hbx]
        omega

theorem uniqList_pairwise_firstIdx {α : Type} [DecidableEq α] (l : List α) :
    (uniqList l).Pairwise (fun a b => firstIdx l a < firstIdx l b) :=
  uniqAux_pairwise_firstIdx l []

theorem maskFilter_map {α : Type} (p : α → Bool) :
    ∀ (xs : List α), maskFilter xs (xs.map p) = xs.filter p := by
  intro xs
  induction xs with
  | nil => simp [maskFilter]
  | cons x l ih =>
    by_cases hx : p x
    · simp [maskFilter, List.filter_cons, hx, ih]
    · simp only [List.map_cons, maskFilter, List.filter_cons]
      rw [if_neg (by simpa using hx), if_neg (by simpa using hx)]
      exact ih

theorem maskFilter_sublist {α : Type} :
    ∀ (xs : List α) (mask : List Bool), (maskFilter xs mask).Sublist xs := by
  intro xs
  induction xs with
  | nil => intro mask; simp [maskFilter]
  | cons x l ih =>
    intro mask
    cases mask with
    | nil => simp [maskFilter]
    | cons b bs =>
      by_cases hb : b
      · subst hb; rw [maskFilter, if_pos rfl]; exact (ih bs).cons₂ x
      · rw [maskFilter, if_neg hb]; exact (ih bs).cons x

/-! Sorting lemmas for the time axis of the modelled estimator. -/

theorem insertSorted_perm (x : ℚ) :
    ∀ (l : List ℚ), (insertSorted x l).Perm (x :: l) := by
  intro l
  induction l with
  | nil => simp [insertSorted]
  | cons y ys ih =>
    by_cases h : x ≤ y
    · rw [insertSorted, if_pos h]
    · rw [insertSorted, if_neg h]
      exact (ih.cons y).trans (List.Perm.swap x y ys)

theorem insertSorted_sorted (x : ℚ) :
    ∀ (l : List ℚ), l.Sorted (· ≤ ·) → (insertSorted x l).Sorted (· ≤ ·) := by
  intro l
  induction l with
  | nil => intro _; simp [insertSorted]
  | cons y ys ih =>
    intro hs
    rcases List.sorted_cons.mp hs with ⟨hy, hys⟩
    by_cases h : x ≤ y
    · rw [insertSorted, if_pos h]
      refine List.sorted_cons.mpr ⟨?_, hs⟩
      intro b hb
      rcases List.mem_cons.mp hb with hb | hb
      · exact hb ▸ h
      · exact h.trans (hy b hb)
    · rw [insertSorted, if_neg h]
      refine List.sorted_cons.mpr ⟨?_, ih hys⟩
      intro b hb
      rcases List.mem_cons.mp (((insertSorted_perm x ys).mem_iff).mp hb) with hb | hb
      · exact hb ▸ (le_of_not_le h)
      · exact hy b hb

theorem sortQ_perm : ∀ (l : List ℚ), (sortQ l).Perm l := by
  intro l
  induction l with
  | nil => simp [sortQ]
  | cons x xs ih =>
    have : sortQ (x :: xs) = insertSorted x (sortQ xs) := rfl
    rw [this]
    exact (insertSorted_perm x (sortQ xs)).trans (ih.cons x)

theorem sortQ_sorted : ∀ (l : List ℚ), (sortQ l).Sorted (· ≤ ·) := by
  intro l
  induction l with
  | nil => simp [sortQ]
  | cons x xs ih => exact insertSorted_sorted x (sortQ xs) ih

theorem mem_sortQ (a : ℚ) (l : List ℚ) : a ∈ sortQ l ↔ a ∈ l :=
  (sortQ_perm l).mem_iff

/-! Lemmas about the modelled Kaplan-Meier quantities. -/

theorem mem_kmTimes {t : ℚ} {ds : List (ℚ × Bool)} :
    t ∈ kmTimes ds ↔ ∃ p ∈ ds, p.1 = t := by
  rw [kmTimes, mem_sortQ, mem_uniqList, List.mem_map]

theorem kmAtRisk_pos {t : ℚ} {ds : List (ℚ × Bool)} (h : t ∈ kmTimes ds) :
    0 < kmAtRisk ds t := by
  rcases mem_kmTimes.mp h with ⟨p, hp, hpt⟩
  rw [kmAtRisk]
  exact List.countP_pos_iff.mpr ⟨p, hp, by simp [hpt]⟩

theorem kmEventsAt_le (ds : List (ℚ × Bool)) (t : ℚ) :
    kmEventsAt ds t ≤ kmAtRisk ds t := by
  rw [kmEventsAt, kmAtRisk]
  refine List.countP_mono_left ?_
  intro p _ hp
  have h1 : p.1 = t := by
    by_contra hne
    simp [hne] at hp
  simp [h1]

theorem kmFactor_bounds {t : ℚ} {ds : List (ℚ × Bool)} (h : t ∈ kmTimes ds) :
    0 ≤ kmFactor ds t ∧ kmFactor ds t ≤ 1 := by
  have hn : (0 : ℚ) < (kmAtRisk ds t : ℚ) := by exact_mod_cast kmAtRisk_pos h
  have he : (kmEventsAt ds t : ℚ) ≤ (kmAtRisk ds t : ℚ) := by
    exact_mod_cast kmEventsAt_le ds t
  have h1 : (kmEventsAt ds t : ℚ) / (kmAtRisk ds t : ℚ) ≤ 1 :=
    (div_le_one hn).mpr he
  have h0 : (0 : ℚ) ≤ (kmEventsAt ds t : ℚ) / (kmAtRisk ds t : ℚ) := by positivity
  constructor
  · rw [kmFactor]; linarith
  · rw [kmFactor]; linarith

theorem kmCurveAux_bounds (ds : List (ℚ × Bool)) :
    ∀ (ts : List ℚ) (acc : ℚ), 0 ≤ acc →
      (∀ t ∈ ts, 0 ≤ kmFactor ds t ∧ kmFactor ds t ≤ 1) →
      (∀ r ∈ kmCurveAux ds ts acc, 0 ≤ r.2 ∧ r.2 ≤ acc) ∧
        (kmCurveAux ds ts acc).Pairwise (fun a b => b.2 ≤ a.2) := by
  intro ts
  induction ts with
  | nil => intro acc _ _; simp [kmCurveAux]
  | cons t ts ih =>
    intro acc hacc hf
    have hft := hf t (List.mem_cons_self t ts)
    have hs0 : 0 ≤ acc * kmFactor ds t := mul_nonneg hacc hft.1
    have hsacc : acc * kmFactor ds t ≤ acc := mul_le_of_le_one_right hacc hft.2
    have ihs := ih (acc * kmFactor ds t) hs0
      (fun u hu => hf u (List.mem_cons_of_mem t hu))
    constructor
    · intro r hr
      rcases List.mem_cons.mp hr with hr | hr
      · rw [hr]; exact ⟨hs0, hsacc⟩
      · exact ⟨(ihs.1 r hr).1, ((ihs.1 r hr).2).trans hsacc⟩
    · refine List.Pairwise.cons ?_ ihs.2
      intro b hb
      exact (ihs.1 b hb).2

/-! Lemmas relating the tier combination to a per-row description. -/

theorem resolve_days_map (f : Subject → Option Int) (g : Subject → Option ℚ) :
    ∀ (l : List Subject),
      resolve_days (l.map f) ((l.map f).map Option.isSome) (l.map g) =
        l.map (fun r => match f r with | some d => some ((d : ℚ)) | none => g r) := by
  intro l
  induction l with
  | nil => simp [resolve_days]
  | cons r l ih =>
    simp only [List.map_cons, resolve_days, ih]
    cases hf : f r <;> simp [hf]

/-! Lemmas about the censored-record extractor. -/

theorem get_censored_df_cons_true (a : Option ℚ) (sd : List (Option ℚ)) (es : List Bool)
    (i : String) (ids : List String) :
    get_censored_df (a :: sd) (true :: es) (i :: ids) = get_censored_df sd es ids := rfl

theorem get_censored_df_cons_false (a : Option ℚ) (sd : List (Option ℚ)) (es : List Bool)
    (i : String) (ids : List String) :
    get_censored_df (a :: sd) (false :: es) (i :: ids) = (i, a) :: get_censored_df sd es ids := rfl

theorem get_censored_df_eq :
    ∀ (es : List Bool) (sd : List (Option ℚ)) (ids : List String),
      sd.length = es.length → ids.length = es.length →
      get_censored_df sd es ids =
        ((ids.zip (es.zip sd)).filter (fun p => !p.2.1)).map (fun p => (p.1, p.2.2)) := by
  intro es
  induction es with
  | nil =>
    intro sd ids hsd hids
    cases sd with
    | nil =>
      cases ids with
      | nil => simp [get_censored_df, maskFilter]
      | cons _ _ => simp at hids
    | cons _ _ => simp at hsd
  | cons b es ih =>
    intro sd ids hsd hids
    cases sd with
    | nil => simp at hsd
    | cons a sd =>
      cases ids with
      | nil => simp at hids
      | cons i ids =>
        have hsd' : sd.length = es.length := by simpa using hsd
        have hids' : ids.length = es.length := by simpa using hids
        cases b with
        | true =>
          rw [get_censored_df_cons_true, ih sd ids hsd' hids']
          simp [List.filter_cons]
        | false =>
          rw [get_censored_df_cons_false, ih sd ids hsd' hids']
          simp [List.filter_cons]

theorem get_censored_df_count :
    ∀ (es : List Bool) (sd : List (Option ℚ)) (ids : List String),
      sd.length = es.length → ids.length = es.length →
      (get_censored_df sd es ids).length + es.count true = ids.length := by
  intro es
  induction es with
  | nil =>
    intro sd ids hsd hids
    cases sd with
    | nil =>
      cases ids with
      | nil => simp [get_censored_df, maskFilter]
      | cons _ _ => simp at hids
    | cons _ _ => simp at hsd
  | cons b es ih =>
    intro sd ids hsd hids
    cases sd with
    | nil => simp at hsd
    | cons a sd =>
      cases ids with
      | nil => simp at hids
      | cons i ids =>
        have hsd' : sd.length = es.length := by simpa using hsd
        have hids' : ids.length = es.length := by simpa using hids
        have hrec := ih sd ids hsd' hids'
        cases b with
        | true =>
          rw [get_censored_df_cons_true]
          simp only [List.count_cons, List.length_cons]
          simp only [beq_self_eq_true, if_pos]
          omega
        | false =>
          rw [get_censored_df_cons_false]
          simp only [List.count_cons, List.length_cons]
          have : (false == true) = false := by decide
          rw [this]
          simp only [if_neg Bool.false_ne_true]
          omega

/-! Reduction lemmas for the Except monad and characterizations of the
successful runs of each pipeline stage. -/

theorem except_bind_ok {ε α β : Type} (x : α) (f : α → Except ε β) :
    (Except.ok x : Except ε α) >>= f = f x := rfl

theorem except_bind_err {ε α β : Type} (e : ε) (f : α → Except ε β) :
    (Except.error e : Except ε α) >>= f = Except.error e := rfl

theorem except_pure {ε α : Type} (a : α) : (pure a : Except ε α) = Except.ok a := rfl

theorem get_survival_days_from_dates_ok {t : Table} {dc : String}
    {v : List (Option Int) × List Bool}
    (h : get_survival_days_from_dates t dc = Except.ok v) :
    v = (t.rows.map (fun r => date_diff r dc),
         (t.rows.map (fun r => date_diff r dc)).map Option.isSome) := by
  unfold get_survival_days_from_dates at h
  split at h
  · exact Except.noConfusion h
  · split at h
    · exact Except.noConfusion h
    · split at h
      · exact Except.noConfusion h
      · injection h with h
        exact h.symm

theorem get_survival_days_from_days_ok {t : Table} {yc : String}
    {v : List (Option ℚ) × List Bool}
    (h : get_survival_days_from_days t yc = Except.ok v) :
    v = (t.rows.map (fun r => r.vital_status_change_day),
         (t.rows.map (fun r => r.vital_status_change_day)).map Option.isSome) := by
  unfold get_survival_days_from_days at h
  split at h
  · exact Except.noConfusion h
  · split at h
    · exact Except.noConfusion h
    · split at h
      · exact Except.noConfusion h
      · injection h with h
        exact h.symm

theorem get_survival_columns_cases {type dc yc : String}
    (h : get_survival_columns type = Except.ok (dc, yc)) :
    (dc = "progression_status_change_date" ∧ yc = "progression_status_change_day")
    ∨ (dc = "vital_status_change_date" ∧ yc = "vital_status_change_day") := by
  unfold get_survival_columns at h
  split at h
  · exact Except.noConfusion h
  · split at h
    · injection h with h
      exact Or.inl ⟨congrArg Prod.fst h.symm, congrArg Prod.snd h.symm⟩
    · injection h with h
      exact Or.inr ⟨congrArg Prod.fst h.symm, congrArg Prod.snd h.symm⟩

theorem get_exit_status_vital_ok {t : Table} {es : List Bool}
    (h : get_exit_status t "vital" = Except.ok es) :
    es = t.rows.map (fun r => r.vital_status == some false) := by
  unfold get_exit_status at h
  rw [if_neg (by decide), if_pos rfl] at h
  split at h
  · injection h with h
    exact h.symm
  · exact Except.noConfusion h

theorem get_exit_status_progress_ok {t : Table} {es : List Bool}
    (h : get_exit_status t "progress" = Except.ok es) :
    es = t.rows.map (fun r => r.progression_status == some true) := by
  unfold get_exit_status at h
  rw [if_neg (by decide), if_neg (by decide)] at h
  split at h
  · injection h with h
    exact h.symm
  · exact Except.noConfusion h

/-! Lemmas about pdEq, the label series and the error paths of the
pipeline. -/

theorem pdEq_some_iff (s : String) (l : Option String) :
    pdEq (some s) l = true ↔ l = some s := by
  cases l with
  | none =>
    exact iff_of_false (fun h => Bool.noConfusion h) (fun h => Option.noConfusion h)
  | some y =>
    show ((s == y) = true) ↔ (some y = some s)
    rw [beq_iff_eq]
    exact ⟨fun h => h ▸ rfl, fun h => (Option.some.inj h).symm⟩

theorem pdEq_none_left (l : Option String) : pdEq none l = false := by
  cases l <;> rfl

theorem uniqAux_all_seen {α : Type} [DecidableEq α] :
    ∀ (l seen : List α), (∀ a ∈ l, a ∈ seen) → uniqAux seen l = [] := by
  intro l
  induction l with
  | nil => intro seen _; rfl
  | cons x xs ih =>
    intro seen h
    rw [uniqAux, if_pos (h x (List.mem_cons_self x xs))]
    exact ih seen (fun a ha => h a (List.mem_cons_of_mem x ha))

theorem uniqList_const {α β : Type} [DecidableEq β] (c : β) :
    ∀ (l : List α), l ≠ [] → uniqList (l.map (fun _ => c)) = [c] := by
  intro l h
  cases l with
  | nil => exact absurd rfl h
  | cons x xs =>
    rw [List.map_cons, uniqList, uniqAux, if_neg (List.not_mem_nil c)]
    rw [uniqAux_all_seen _ _ (fun a ha => by
      rcases List.mem_map.mp ha with ⟨_, _, hc⟩
      exact hc ▸ List.mem_cons_self c [])]

theorem uniqList_ne_nil {α : Type} [DecidableEq α] {l : List α} (h : l ≠ []) :
    uniqList l ≠ [] := by
  cases l with
  | nil => exact absurd rfl h
  | cons x xs =>
    rw [uniqList, uniqAux, if_neg (List.not_mem_nil x)]
    exact List.cons_ne_nil x _

theorem get_labels_ne_nil {t : Table} (h : t.rows ≠ []) : get_labels t ≠ [] := by
  unfold get_labels
  split <;> simpa [List.map_eq_nil_iff] using h

theorem get_survival_days_error_type {ty : String} (t : Table)
    (h1 : ty ≠ "progress") (h2 : ty ≠ "vital") :
    get_survival_days t ty = Except.error s!"Type {ty} not in [progress,vital]" := by
  have hmem : ty ∉ ["progress", "vital"] := by simp [h1, h2]
  unfold get_survival_days get_survival_columns
  rw [if_pos hmem]
  rfl

theorem get_survival_days_error_datecol {t : Table} {ty dc yc : String}
    (hcols : get_survival_columns ty = Except.ok (dc, yc)) (hdc : dc ∉ t.cols) :
    get_survival_days t ty = Except.error s!"Column {dc} not in data" := by
  have hdcmem : dc ∈ ["vital_status_change_date", "progression_status_change_date"] := by
    rcases get_survival_columns_cases hcols with ⟨h, _⟩ | ⟨h, _⟩ <;> simp [h]
  unfold get_survival_days
  rw [hcols, except_bind_ok]
  dsimp only
  unfold get_survival_days_from_dates
  rw [if_neg (not_not_intro hdcmem), if_pos hdc]
  rfl

theorem get_survival_days_error_diag {t : Table} {ty dc yc : String}
    (hcols : get_survival_columns ty = Except.ok (dc, yc)) (hdc : dc ∈ t.cols)
    (hdiag : "diagnosis_date" ∉ t.cols) :
    get_survival_days t ty = Except.error "diagnosis_date" := by
  have hdcmem : dc ∈ ["vital_status_change_date", "progression_status_change_date"] := by
    rcases get_survival_columns_cases hcols with ⟨h, _⟩ | ⟨h, _⟩ <;> simp [h]
  unfold get_survival_days
  rw [hcols, except_bind_ok]
  dsimp only
  unfold get_survival_days_from_dates
  rw [if_neg (not_not_intro hdcmem), if_neg (not_not_intro hdc), if_pos hdiag]
  rfl

theorem get_survival_days_error_daycol {t : Table} {ty dc yc : String}
    (hcols : get_survival_columns ty = Except.ok (dc, yc)) (hdc : dc ∈ t.cols)
    (hdiag : "diagnosis_date" ∈ t.cols) (hyc : yc ∉ t.cols) :
    get_survival_days t ty = Except.error s!"Column {yc} not in data" := by
  have hdcmem : dc ∈ ["vital_status_change_date", "progression_status_change_date"] := by
    rcases get_survival_columns_cases hcols with ⟨h, _⟩ | ⟨h, _⟩ <;> simp [h]
  have hycmem : yc ∈ ["vital_status_change_day", "progression_status_change_day"] := by
    rcases get_survival_columns_cases hcols with ⟨_, h⟩ | ⟨_, h⟩ <;> simp [h]
  unfold get_survival_days
  rw [hcols, except_bind_ok]
  dsimp only
  unfold get_survival_days_from_dates
  rw [if_neg (not_not_intro hdcmem), if_neg (not_not_intro hdc),
    if_neg (not_not_intro hdiag), except_bind_ok]
  dsimp only
  unfold get_survival_days_from_days
  rw [if_neg (not_not_intro hycmem), if_pos hyc]
  rfl

theorem app_main_error_of_gsd {t : Table} {ty msg : String} (hrows : t.rows ≠ [])
    (h : ∀ rows, get_survival_days { rows := rows, cols := t.cols } ty = Except.error msg) :
    app_main t ty = Except.error msg := by
  obtain ⟨u, utl, hu⟩ := List.exists_cons_of_ne_nil (uniqList_ne_nil (get_labels_ne_nil hrows))
  have hsub : (get_subsets t (get_labels t)).1 =
      (u :: utl).map (fun l =>
        { rows := maskFilter t.rows ((get_labels t).map (fun x => pdEq x l)),
          cols := t.cols }) := by
    unfold get_subsets
    rw [hu]
  unfold app_main
  rw [hsub, List.map_cons, List.mapM_cons, h, except_bind_err, except_bind_err]

theorem countP_eq_one_of_nodup_mem {α : Type} [DecidableEq α] :
    ∀ {l : List α} {a : α}, l.Nodup → a ∈ l → l.countP (fun x => decide (x = a)) = 1 := by
  intro l
  induction l with
  | nil => intro a _ ha; exact absurd ha (List.not_mem_nil a)
  | cons x xs ih =>
    intro a hn ha
    rcases List.nodup_cons.mp hn with ⟨hx, hxs⟩
    by_cases hxa : x = a
    · subst hxa
      rw [List.countP_cons, List.countP_eq_zero.mpr ?_]
      · simp
      · intro b hb
        simp only [decide_eq_true_eq]
        intro hba
        exact hx (hba ▸ hb)
    · rcases List.mem_cons.mp ha with h | h
      · exact absurd h.symm hxa
      · rw [List.countP_cons, ih hxs h]
        simp [hxa]

/-! The claim theorems. -/

/-- C1: the claim says the day-count fallback tier reads the day-count
column selected by the analysis type. The code instead always reads
`vital_status_change_day` (app.py line 58) after validating the requested
column, contradicting its own docstring and its own validation: asked for
the progression day column, it returns the vital day value (42, not the
progression value 7), and when the vital day column is absent it raises a
KeyError even though the progression day column it was asked for is
present. -/
theorem c1_day_tier_reads_vital_column :
    get_survival_days_from_days tC1 "progression_status_change_day"
        = Except.ok ([some (42 : ℚ)], [true])
    ∧ tC1.rows.map (fun r => r.progression_status_change_day) = [some (7 : ℚ)]
    ∧ tC1.rows.map (fun r => r.vital_status_change_day) = [some (42 : ℚ)]
    ∧ get_survival_days_from_days tC1m "progression_status_change_day"
        = Except.error "vital_status_change_day" :=
  ⟨rfl, rfl, rfl, rfl⟩

/-- C2: the claim says the three sequences handed to the logrank test are
index-aligned per subject and are the concatenation over groups of each
group's durations, events and labels. The code concatenates the groups'
durations and events (group order A, A, B giving 10, 30, 20) but passes the
original-order label series (A, B, A), so position 1 pairs subject s3's
duration 30 with subject s2's label B; the label sequence differs from the
concatenation of the groups' labels. -/
theorem c2_logrank_labels_misaligned :
    (app_main tC2 "vital").map (fun o => o.logrank)
        = Except.ok (some ([some (10 : ℚ), some 30, some 20], [true, true, true],
            [some "A", some "B", some "A"]))
    ∧ ((get_subsets tC2 (get_labels tC2)).1.map (fun s => get_labels s)).flatten
        = [some "A", some "A", some "B"]
    ∧ ([some "A", some "B", some "A"] : List (Option String))
        ≠ [some "A", some "A", some "B"] := by
  refine ⟨rfl, rfl, by decide⟩

/-- C3 counterexample: under the `progress` analysis type, a subject whose
date pair fails and whose progression day value is 5 resolves to the vital
day value 99, not to 5, so the claim as stated (duration equals that
subject's type-selected day value) is false. -/
theorem c3_progress_day_counterexample :
    get_survival_days tC3x "progress" = Except.ok [some (99 : ℚ)]
    ∧ tC3x.rows.map (fun r => r.progression_status_change_day) = [some (5 : ℚ)]
    ∧ (99 : ℚ) ≠ 5 := by
  refine ⟨rfl, rfl, by norm_num⟩

/-- C3 (amended): for every subject, if both the diagnosis date and the
type-selected follow-up date are present the resolved duration equals their
difference in whole days, and otherwise it equals the subject's value in
the `vital_status_change_day` column (the day tier reads that column for
both analysis types); the day tier is never consulted for a subject whose
date tier succeeded. -/
theorem c3_duration_fallback_amended (t : Table) (type dc yc : String)
    (ds : List (Option ℚ))
    (hcols : get_survival_columns type = Except.ok (dc, yc))
    (hds : get_survival_days t type = Except.ok ds) :
    ds = t.rows.map (fun r =>
      match date_diff r dc with
      | some d => some ((d : ℚ))
      | none => r.vital_status_change_day) := by
  unfold get_survival_days at hds
  rw [hcols, except_bind_ok] at hds
  dsimp only at hds
  cases h1 : get_survival_days_from_dates t dc with
  | error e => rw [h1, except_bind_err] at hds; exact Except.noConfusion hds
  | ok v =>
    rw [h1, except_bind_ok] at hds
    cases h2 : get_survival_days_from_days t yc with
    | error e => rw [h2, except_bind_err] at hds; exact Except.noConfusion hds
    | ok w =>
      rw [h2, except_bind_ok, except_pure] at hds
      injection hds with hds
      rw [← hds, get_survival_days_from_dates_ok h1, get_survival_days_from_days_ok h2]
      dsimp only
      exact resolve_days_map (fun r => date_diff r dc) (fun r => r.vital_status_change_day) t.rows

/-- C3 witness: the fallback scenario of the spec, a subject with a missing
vital-status-change date and an explicit vital day count of 42 resolves to
42 under the `vital` analysis type. -/
theorem c3_duration_fallback_witness :
    [some (42 : ℚ)] = tC3w.rows.map (fun r =>
      match date_diff r "vital_status_change_date" with
      | some d => some ((d : ℚ))
      | none => r.vital_status_change_day) :=
  c3_duration_fallback_amended tC3w "vital" "vital_status_change_date"
    "vital_status_change_day" [some 42] rfl rfl

/-- C4 counterexample: the claim equates censored rows plus event-true
subjects with the subjects having a resolved duration; for a single subject
with an unresolved duration and no event the extractor still emits one
censored row, so the sum is 1 while no duration is resolved. -/
theorem c4_censored_count_counterexample :
    get_censored_df [none] [false] ["s1"] = [("s1", (none : Option ℚ))]
    ∧ ¬ ((get_censored_df [none] [false] ["s1"]).length + [false].count true
        = ([none] : List (Option ℚ)).countP (fun d => d.isSome)) := by
  exact ⟨rfl, by decide⟩

/-- C4 (amended): given index-aligned per-subject durations, events and
sample ids for one group, the extractor returns exactly the subjects whose
event indicator is false, as (sample id, days at censoring) pairs in the
group's original order, and the number of censored rows plus the number of
event-true subjects equals the total number of subjects in the group (which
equals the number with resolved duration whenever all durations resolve);
an empty result is valid. -/
theorem c4_censored_extractor_amended (sd : List (Option ℚ)) (es : List Bool)
    (ids : List String) (h1 : sd.length = es.length) (h2 : ids.length = es.length) :
    get_censored_df sd es ids
        = ((ids.zip (es.zip sd)).filter (fun p => !p.2.1)).map (fun p => (p.1, p.2.2))
    ∧ (get_censored_df sd es ids).length + es.count true = ids.length :=
  ⟨get_censored_df_eq es sd ids h1 h2, get_censored_df_count es sd ids h1 h2⟩

/-- C4 witness: two subjects, the first with an event and the second
censored; the extractor keeps exactly the censored pair and the counts add
up to the group size. -/
theorem c4_censored_extractor_witness :
    get_censored_df sdC4 esC4 idsC4
        = ((idsC4.zip (esC4.zip sdC4)).filter (fun p => !p.2.1)).map (fun p => (p.1, p.2.2))
    ∧ (get_censored_df sdC4 esC4 idsC4).length + esC4.count true = idsC4.length :=
  c4_censored_extractor_amended sdC4 esC4 idsC4 (by decide) (by decide)

/-- C5: the event indicator under the `vital` analysis type is true exactly
when the subject's vital-status field equals false, and under `progress`
exactly when the progression-status field equals true. -/
theorem c5_exit_status_semantics (t : Table) (i : Nat) (r : Subject)
    (es esp : List Bool) (hr : t.rows.get? i = some r)
    (hv : get_exit_status t "vital" = Except.ok es)
    (hp : get_exit_status t "progress" = Except.ok esp) :
    (es.get? i = some true ↔ r.vital_status = some false)
    ∧ (esp.get? i = some true ↔ r.progression_status = some true) := by
  rw [get_exit_status_vital_ok hv, get_exit_status_progress_ok hp,
    List.get?_map, List.get?_map, hr]
  constructor <;> simp [beq_iff_eq]

/-- C5 witness: a subject with vital status false and progression status
true is an event under both analysis types. -/
theorem c5_exit_status_witness :
    (([true, false, false] : List Bool).get? 0 = some true
      ↔ rowC5a.vital_status = some false)
    ∧ (([true, false, false] : List Bool).get? 0 = some true
      ↔ rowC5a.progression_status = some true) :=
  c5_exit_status_semantics tC5w 0 rowC5a [true, false, false] [true, false, false]
    rfl rfl rfl

/-- C10: a subject whose status cell is missing is classified as censored
(indicator false) rather than raising, under both analysis types. -/
theorem c10_missing_status_censored (t : Table) (i : Nat) (r : Subject)
    (es esp : List Bool) (hr : t.rows.get? i = some r)
    (hv : get_exit_status t "vital" = Except.ok es)
    (hp : get_exit_status t "progress" = Except.ok esp)
    (hn1 : r.vital_status = none) (hn2 : r.progression_status = none) :
    es.get? i = some false ∧ esp.get? i = some false := by
  rw [get_exit_status_vital_ok hv, get_exit_status_progress_ok hp,
    List.get?_map, List.get?_map, hr]
  simp [hn1, hn2]

/-- C10 witness: the single subject of the witness table has both status
cells missing and is classified as censored under both types. -/
theorem c10_missing_status_witness :
    ([false] : List Bool).get? 0 = some false ∧ ([false] : List Bool).get? 0 = some false :=
  c10_missing_status_censored tC10w 0
    (mkSubject "s1" none none none none none none none none)
    [false] [false] rfl rfl rfl rfl rfl

/-- C6 counterexample: in a table whose label column has a missing cell,
the subject with the missing label belongs to no group subset, so the
grouping is not a partition of the subjects. -/
theorem c6_missing_label_counterexample :
    rowC6n ∈ tC6.rows
    ∧ (get_subsets tC6 (get_labels tC6)).1.countP (fun sub => decide (rowC6n ∈ sub.rows)) = 0 := by
  decide

/-- C6 (amended): grouping partitions the subjects that carry a label
value: each subset preserves the original row order (it is a sublist of the
table), every subject with a present label lies in exactly one subset, the
returned labels are distinct, cover the label series, and appear in
first-occurrence order, and a nonempty table without a label column yields
a single synthetic group labeled "0" containing all subjects; a subject
with a missing label cell lies in no subset. -/
theorem c6_grouping_partition_amended (t : Table) :
    (∀ sub ∈ (get_subsets t (get_labels t)).1, sub.rows.Sublist t.rows)
    ∧ (∀ r ∈ t.rows, "label" ∈ t.cols → r.label.isSome = true →
        (get_subsets t (get_labels t)).1.countP (fun sub => decide (r ∈ sub.rows)) = 1)
    ∧ ("label" ∉ t.cols → t.rows ≠ [] →
        (get_subsets t (get_labels t)).1.map (fun s => s.rows) = [t.rows]
          ∧ (get_subsets t (get_labels t)).2 = [some "0"])
    ∧ (get_subsets t (get_labels t)).2.Nodup
    ∧ (∀ x ∈ get_labels t, x ∈ (get_subsets t (get_labels t)).2)
    ∧ (get_subsets t (get_labels t)).2.Pairwise
        (fun a b => firstIdx (get_labels t) a < firstIdx (get_labels t) b) := by
  have h1 : (get_subsets t (get_labels t)).1 = (uniqList (get_labels t)).map
      (fun l => { rows := maskFilter t.rows ((get_labels t).map (fun x => pdEq x l)),
                  cols := t.cols }) := rfl
  have h2 : (get_subsets t (get_labels t)).2 = uniqList (get_labels t) := rfl
  refine ⟨?_, ?_, ?_, ?_, ?_, ?_⟩
  · intro sub hsub
    rw [h1] at hsub
    rcases List.mem_map.mp hsub with ⟨l, _, hl⟩
    rw [← hl]
    exact maskFilter_sublist t.rows _
  · intro r hr hcol hsome
    obtain ⟨s, hs⟩ := Option.isSome_iff_exists.mp hsome
    have hlabval : get_labels t = t.rows.map (fun rr => rr.label) := by
      unfold get_labels
      rw [if_pos hcol]
    have hmask : ∀ l, maskFilter t.rows ((get_labels t).map (fun x => pdEq x l))
        = t.rows.filter (fun rr => pdEq rr.label l) := by
      intro l
      rw [hlabval, List.map_map]
      exact maskFilter_map _ t.rows
    rw [h1, List.countP_map]
    have hcg : ∀ l ∈ uniqList (get_labels t),
        (((fun sub => decide (r ∈ sub.rows)) ∘
          (fun l => ({ rows := maskFilter t.rows ((get_labels t).map (fun x => pdEq x l)),
                       cols := t.cols } : Table))) l = true)
          ↔ (decide (l = some s) = true) := by
      intro l _
      show (decide (r ∈ maskFilter t.rows ((get_labels t).map (fun x => pdEq x l))) = true) ↔ _
      rw [hmask l, decide_eq_true_eq, List.mem_filter, decide_eq_true_eq]
      constructor
      · rintro ⟨_, hp⟩
        rw [hs] at hp
        exact (pdEq_some_iff s l).mp hp
      · intro hl
        refine ⟨hr, ?_⟩
        rw [hs, hl]
        show (s == s) = true
        exact beq_self_eq_true s
    have hmem : some s ∈ uniqList (get_labels t) := by
      refine (mem_uniqList _ _).mpr ?_
      rw [hlabval]
      exact List.mem_map.mpr ⟨r, hr, hs⟩
    rw [List.countP_congr hcg]
    exact countP_eq_one_of_nodup_mem (nodup_uniqList (get_labels t)) hmem
  · intro hnc hne
    have hlabconst : get_labels t = t.rows.map (fun _ => some "0") := by
      unfold get_labels
      rw [if_neg hnc]
    constructor
    · rw [h1, hlabconst, uniqList_const _ _ hne, List.map_cons, List.map_nil,
        List.map_cons, List.map_nil]
      congr 1
      rw [List.map_map]
      have hone : ((fun x => pdEq x (some "0")) ∘ (fun (_ : Subject) => (some "0" : Option String)))
          = (fun (_ : Subject) => true) := by
        funext _
        rfl
      rw [hone]
      have := maskFilter_map (fun (_ : Subject) => true) t.rows
      rw [this, List.filter_true]
    · rw [h2, hlabconst, uniqList_const _ _ hne]
  · rw [h2]
    exact nodup_uniqList _
  · intro x hx
    rw [h2]
    exact (mem_uniqList x _).mpr hx
  · rw [h2]
    exact uniqList_pairwise_firstIdx _

/-- C6 witness: in a fully labeled two-group table, the first subject lies
in exactly one group subset. -/
theorem c6_grouping_partition_witness :
    (get_subsets tC6w (get_labels tC6w)).1.countP (fun sub => decide (rowC6wA ∈ sub.rows)) = 1 :=
  (c6_grouping_partition_amended tC6w).2.1 rowC6wA (by decide) (by decide) (by decide)

/-- C7 counterexample: a run on a zero-row table (a header-only file) with
the invalid analysis type banana does not fail with a configuration error
naming the offending value; it fails later, at the result unpacking, with a
message that does not mention the type at all. -/
theorem c7_zero_row_counterexample :
    app_main tC7e "banana" = Except.error "not enough values to unpack (expected 2, got 0)"
    ∧ strIn "banana" "not enough values to unpack (expected 2, got 0)" = false := by
  exact ⟨rfl, by decide⟩

/-- C7 (amended): for every run on a table with at least one row, an
analysis type outside progress and vital fails the whole run with the
error message interpolating the offending type, and a missing required
column (the type-selected census date column, the diagnosis date column,
or the day-count column) fails the whole run with the error message naming
that column; in the error case no output is produced. -/
theorem c7_configuration_errors_amended (t : Table) (ty : String) (h : t.rows ≠ []) :
    ((ty ≠ "progress" ∧ ty ≠ "vital") →
      app_main t ty = Except.error s!"Type {ty} not in [progress,vital]")
    ∧ (∀ dc yc, get_survival_columns ty = Except.ok (dc, yc) →
        (dc ∉ t.cols → app_main t ty = Except.error s!"Column {dc} not in data")
        ∧ (dc ∈ t.cols → "diagnosis_date" ∉ t.cols →
            app_main t ty = Except.error "diagnosis_date")
        ∧ (dc ∈ t.cols → "diagnosis_date" ∈ t.cols → yc ∉ t.cols →
            app_main t ty = Except.error s!"Column {yc} not in data")) := by
  refine ⟨?_, ?_⟩
  · rintro ⟨h1, h2⟩
    exact app_main_error_of_gsd h (fun rows => get_survival_days_error_type _ h1 h2)
  · intro dc yc hcols
    refine ⟨?_, ?_, ?_⟩
    · intro hdc
      exact app_main_error_of_gsd h (fun rows => get_survival_days_error_datecol hcols hdc)
    · intro hdc hdiag
      exact app_main_error_of_gsd h (fun rows => get_survival_days_error_diag hcols hdc hdiag)
    · intro hdc hdiag hyc
      exact app_main_error_of_gsd h
        (fun rows => get_survival_days_error_daycol hcols hdc hdiag hyc)

/-- C7 witness: a one-row table whose file lacks the vital-status-change
date column fails the whole vital run with the error naming that column. -/
theorem c7_configuration_errors_witness :
    app_main tC7w "vital" = Except.error "Column vital_status_change_date not in data" :=
  ((c7_configuration_errors_amended tC7w "vital" (by decide)).2
    "vital_status_change_date" "vital_status_change_day" rfl).1 (by decide)

/-- C8: in every successful run, the comparison triple is produced exactly
when there are at least two distinct labels; with a single label it is
skipped without being an error (see the witness for a successful
single-label run producing no comparison). -/
theorem c8_logrank_gating (t : Table) (ty : String) (out : MainOutput)
    (h : app_main t ty = Except.ok out) :
    (out.logrank.isSome = true ↔ 2 ≤ (uniqList (get_labels t)).length) := by
  unfold app_main at h
  cases h1 : List.mapM (fun s => get_survival_days s ty) (get_subsets t (get_labels t)).1 with
  | error e => rw [h1, except_bind_err] at h; exact Except.noConfusion h
  | ok sd =>
    rw [h1, except_bind_ok] at h
    cases h2 : List.mapM (fun s => get_exit_status s ty) (get_subsets t (get_labels t)).1 with
    | error e => rw [h2, except_bind_err] at h; exact Except.noConfusion h
    | ok es =>
      rw [h2, except_bind_ok] at h
      split at h
      · exact Except.noConfusion h
      · rw [except_pure] at h
        injection h with h
        rw [← h]
        dsimp only
        rw [show (get_subsets t (get_labels t)).2 = uniqList (get_labels t) from rfl]
        by_cases hlen : 1 < (uniqList (get_labels t)).length
        · rw [if_pos hlen]
          simp only [Option.isSome_some, true_iff]
          omega
        · rw [if_neg hlen]
          simp only [Option.isSome_none]
          constructor
          · intro hfalse
            exact absurd hfalse (by decide)
          · intro hge
            omega

/-- C8 witness: a complete single-label table runs to success and produces
no comparison output. -/
theorem c8_logrank_gating_witness :
    (({ group_labels := [some "A"], group_censored := [[]],
        logrank := none } : MainOutput).logrank.isSome = true)
      ↔ 2 ≤ (uniqList (get_labels tC8)).length :=
  c8_logrank_gating tC8 "vital"
    { group_labels := [some "A"], group_censored := [[]], logrank := none } rfl

/-- C9: for every survival curve of the modelled Kaplan-Meier estimator,
the survival probability is non-increasing along the (time-ordered) rows,
every row (in particular the first) has probability at most 1, and every
log-log confidence interval of nonnegative half-width brackets the
survival probability. The estimator itself lives in the external library
sksurv; the curve and band here are modelled from the spec (sections 3
and 4.4 and the glossary). -/
theorem c9_km_curve_properties (ds : List (ℚ × Bool)) (r : ℚ × ℚ) (hr : r ∈ kmCurve ds)
    (c : ℝ) (hc : 0 ≤ c) :
    (kmCurve ds).Pairwise (fun a b => b.2 ≤ a.2)
    ∧ r.2 ≤ 1
    ∧ loglogLower r.2 c ≤ (r.2 : ℝ)
    ∧ (r.2 : ℝ) ≤ loglogUpper r.2 c := by
  have hb := kmCurveAux_bounds ds (kmTimes ds) 1 (by norm_num)
    (fun u hu => kmFactor_bounds hu)
  have hr2 := hb.1 r hr
  have h0 : (0 : ℚ) ≤ r.2 := hr2.1
  have h1 : r.2 ≤ 1 := hr2.2
  have hx0 : (0 : ℝ) ≤ (r.2 : ℝ) := by exact_mod_cast h0
  have hx1 : ((r.2 : ℚ) : ℝ) ≤ 1 := by exact_mod_cast h1
  refine ⟨hb.2, h1, ?_, ?_⟩
  · rcases eq_or_lt_of_le hx0 with heq | hpos
    · rw [loglogLower, ← heq, Real.zero_rpow (Real.exp_ne_zero c)]
    · have hle := Real.rpow_le_rpow_of_exponent_ge hpos hx1 (Real.one_le_exp_iff.mpr hc)
      rw [Real.rpow_one] at hle
      exact hle
  · rcases eq_or_lt_of_le hx0 with heq | hpos
    · rw [loglogUpper, ← heq, Real.zero_rpow (Real.exp_ne_zero (-c))]
    · have hle := Real.rpow_le_rpow_of_exponent_ge hpos hx1
        (Real.exp_le_one_iff.mpr (neg_nonpos.mpr hc))
      rw [Real.rpow_one] at hle
      exact hle

/-- C9 witness: a single subject with an event at time 10 gives the curve
with the single row (10, 0), whose probability is bounded by 1 and
bracketed by the width-zero log-log band. -/
theorem c9_km_curve_witness :
    (kmCurve [((10 : ℚ), true)]).Pairwise (fun a b => b.2 ≤ a.2)
    ∧ (((10 : ℚ), (0 : ℚ)).2 ≤ 1)
    ∧ loglogLower ((10 : ℚ), (0 : ℚ)).2 0 ≤ ((((10 : ℚ), (0 : ℚ)).2 : ℚ) : ℝ)
    ∧ ((((10 : ℚ), (0 : ℚ)).2 : ℚ) : ℝ) ≤ loglogUpper ((10 : ℚ), (0 : ℚ)).2 0 := by
  have hcurve : kmCurve [((10 : ℚ), true)] = [((10 : ℚ), (0 : ℚ))] := by
    norm_num [kmCurve, kmCurveAux, kmTimes, sortQ, insertSorted, uniqList, uniqAux,
      kmFactor, kmAtRisk, kmEventsAt, List.countP_cons, List.countP_nil, List.foldr]
  exact c9_km_curve_properties [((10 : ℚ), true)] ((10 : ℚ), (0 : ℚ))
    (by rw [hcurve]; exact List.mem_singleton.mpr rfl) 0 le_rfl
